import Mathlib

/-!
Verification of the query-suggestion script (`src/main.py`).

The program is a small SQL-query generator: an in-memory registry of table
schemas plus a keyword-based classifier that turns a natural-language
sentence into a template-filled SQL string.  We embed the Python code
shallowly: Python strings become `List Char`, Python dicts become
insertion-ordered association lists, the Python builtins used by the code
(`in`, `str.lower`, `str.strip`, `str.split`, `str.join`, list `*`) are
modelled by executable Lean functions faithful to their documented
semantics, and the two `ValueError` exits become an explicit error type.
-/

namespace QuerySuggestion

/-- Python strings, modelled as lists of characters. -/
abbrev Str := List Char

/-- Coerce a Lean string literal into the model. -/
def str (s : String) : Str := s.toList

/-- Python `needle in haystack` for strings: substring containment
(`True` for the empty needle). -/
def inStr (needle : Str) : Str → Bool
  | [] => needle.isEmpty
  | c :: rest => needle.isPrefixOf (c :: rest) || inStr needle rest

/-- Python `str.lower`, per-character (faithful for the ASCII inputs the
program's vocabulary and the claims use). -/
def pyLower (s : Str) : Str := s.map Char.toLower

/-- The characters Python `str.strip()` removes (ASCII whitespace). -/
def isPySpace (c : Char) : Bool :=
  c = ' ' || c = '\t' || c = '\n' || c = '\r' || c = '\x0b' || c = '\x0c'

/-- Python `str.strip()`: drop leading and trailing whitespace. -/
def pyStrip (s : Str) : Str :=
  ((s.dropWhile isPySpace).reverse.dropWhile isPySpace).reverse

/-- Python `sep.join(parts)`. -/
def joinSep (sep : Str) : List Str → Str
  | [] => []
  | [x] => x
  | x :: y :: rest => x ++ sep ++ joinSep sep (y :: rest)

/-- The prefix of `s` strictly before the first occurrence of `sep`
(`s` itself when `sep` does not occur). -/
def beforeFirst (sep : Str) : Str → Str
  | [] => []
  | c :: rest =>
    if sep.isPrefixOf (c :: rest) then []
    else c :: beforeFirst sep rest

/-- The suffix of `s` strictly after the first occurrence of `sep`
(`[]` when `sep` does not occur). -/
def afterFirst (sep : Str) : Str → Str
  | [] => []
  | c :: rest =>
    if sep.isPrefixOf (c :: rest) then (c :: rest).drop sep.length
    else afterFirst sep rest

/-- Fuel-indexed worker for `pySplit`; the fuel (an upper bound on the
string length) makes the recursion structural so that terms reduce. -/
def pySplitF (sep : Str) : Nat → Str → List Str
  | 0, s => [s]
  | fuel + 1, s =>
    if !sep.isEmpty && inStr sep s then
      beforeFirst sep s :: pySplitF sep fuel (afterFirst sep s)
    else [s]

/-- Python `s.split(sep)` for a non-empty separator: cut `s` at each
leftmost non-overlapping occurrence of `sep`. -/
def pySplit (sep s : Str) : List Str := pySplitF sep s.length s

/-- A column map: insertion-ordered association list from column name to
type label, as a Python dict's items. -/
abbrev ColumnMap := List (Str × Str)

/-- The schema registry: table name to column map, insertion-ordered. -/
abbrev Tables := List (Str × ColumnMap)

/-- Python `d[k]` lookup (first matching key). -/
def dictLookup (k : Str) : List (Str × α) → Option α
  | [] => none
  | (k', v) :: rest => if k' = k then some v else dictLookup k rest

/-- Python `d[k] = v`: replace in place when the key exists (keeping its
position), otherwise append at the end. -/
def dictInsert (k : Str) (v : α) : List (Str × α) → List (Str × α)
  | [] => [(k, v)]
  | (k', v') :: rest =>
    if k' = k then (k, v) :: rest else (k', v') :: dictInsert k v rest

/-! ## The generator (`SQLQueryGenerator` in `src/main.py`) -/

/-- The two `ValueError` exits of `parse_query`; the spec calls them
NotFoundError and ClassificationError. -/
inductive QueryError where
  /-- `Table '{table_name}' not found` -/
  | notFound (table_name : Str)
  /-- `Could not determine query type` -/
  | classification
deriving DecidableEq, Repr

/-- The generator's state: `self.tables`. -/
structure SQLQueryGenerator where
  tables : Tables
deriving DecidableEq, Repr

/-- `SQLQueryGenerator()`: starts with an empty registry. -/
def SQLQueryGenerator.init : SQLQueryGenerator := ⟨[]⟩

/-- `SQLQueryGenerator.add_table`: `self.tables[table_name] = columns`. -/
def add_table (g : SQLQueryGenerator) (table_name : Str) (columns : ColumnMap) :
    SQLQueryGenerator :=
  ⟨dictInsert table_name columns g.tables⟩

/-- The SELECT keyword set, in the order the code lists it. -/
def kwSelect : List Str := [str "show", str "select", str "get", str "find", str "display"]

/-- The INSERT keyword set. -/
def kwInsert : List Str := [str "add", str "insert", str "create"]

/-- The UPDATE keyword set. -/
def kwUpdate : List Str := [str "update", str "modify", str "change"]

/-- The DELETE keyword set. -/
def kwDelete : List Str := [str "delete", str "remove"]

/-- Python `any(word in query for word in kws)`. -/
def anyKw (kws : List Str) (query : Str) : Bool :=
  kws.any fun w => inStr w query

/-- `SQLQueryGenerator._generate_select`.  The `for col in
table_columns.keys()` loop is embedded as a left fold appending matches. -/
def generate_select (tables : Tables) (query table_name : Str) : Str :=
  let table_columns := (dictLookup table_name tables).getD []
  let columns :=
    table_columns.foldl
      (fun acc kv => if inStr (pyLower kv.1) query then acc ++ [kv.1] else acc) []
  let columns := if columns.isEmpty then [str "*"] else columns
  let conditions :=
    if inStr (str "where") query then
      [pyStrip ((pySplit (str "where") query).getD 1 [])]
    else []
  let sql := str "SELECT " ++ joinSep (str ", ") columns ++ str " FROM " ++ table_name
  let sql :=
    if conditions.isEmpty then sql
    else sql ++ str " WHERE " ++ joinSep (str " AND ") conditions
  sql ++ str ";"

/-- `SQLQueryGenerator._generate_insert`. -/
def generate_insert (tables : Tables) (_query table_name : Str) : Str :=
  let columns := ((dictLookup table_name tables).getD []).map Prod.fst
  let placeholders := List.replicate columns.length (str "%s")
  str "INSERT INTO " ++ table_name ++ str " (" ++ joinSep (str ", ") columns ++
    str ") VALUES (" ++ joinSep (str ", ") placeholders ++ str ");"

/-- `SQLQueryGenerator._generate_update`. -/
def generate_update (tables : Tables) (_query table_name : Str) : Str :=
  let columns := ((dictLookup table_name tables).getD []).map Prod.fst
  let set_clause := joinSep (str ", ") (columns.map fun col => col ++ str " = %s")
  str "UPDATE " ++ table_name ++ str " SET " ++ set_clause ++
    str " WHERE condition = %s;"

/-- `SQLQueryGenerator._generate_delete`. -/
def generate_delete (_tables : Tables) (_query table_name : Str) : Str :=
  str "DELETE FROM " ++ table_name ++ str " WHERE condition = %s;"

/-- `SQLQueryGenerator.parse_query`: the guard, the lowercasing, the
keyword dispatch chain, and the final `ValueError`. -/
def parse_query (tables : Tables) (natural_query table_name : Str) :
    Except QueryError Str :=
  match dictLookup table_name tables with
  | none => .error (.notFound table_name)
  | some _ =>
    let query := pyLower natural_query
    if anyKw kwSelect query then .ok (generate_select tables query table_name)
    else if anyKw kwInsert query then .ok (generate_insert tables query table_name)
    else if anyKw kwUpdate query then .ok (generate_update tables query table_name)
    else if anyKw kwDelete query then .ok (generate_delete tables query table_name)
    else .error .classification

/-- `parse_query` as a state transformer on the generator: the method
only reads `self.tables`, so the post-state is the pre-state. -/
def parse_query_run (g : SQLQueryGenerator) (natural_query table_name : Str) :
    Except QueryError Str × SQLQueryGenerator :=
  (parse_query g.tables natural_query table_name, g)

/-! ## Spec-side definitions

These follow the wording of the specification (§4.1 and §8), to be
compared with the code-side definitions above. -/

/-- Statement type, the spec's closed tagged variant. -/
inductive StmtType where
  | select
  | insert
  | update
  | delete
deriving DecidableEq, Repr

/-- The spec's fixed priority order of (keyword set, statement type). -/
def priorityOrder : List (List Str × StmtType) :=
  [(kwSelect, .select), (kwInsert, .insert), (kwUpdate, .update), (kwDelete, .delete)]

/-- Spec-side classifier: the FIRST keyword set (in priority order) with
any substring match wins; `none` when no set matches. -/
def classifySpec (query : Str) : Option StmtType :=
  (priorityOrder.find? fun p => anyKw p.1 query).map Prod.snd

/-- Spec-side dispatch: generate according to `classifySpec`. -/
def parse_query_spec (tables : Tables) (natural_query table_name : Str) :
    Except QueryError Str :=
  match dictLookup table_name tables with
  | none => .error (.notFound table_name)
  | some _ =>
    let query := pyLower natural_query
    match classifySpec query with
    | some .select => .ok (generate_select tables query table_name)
    | some .insert => .ok (generate_insert tables query table_name)
    | some .update => .ok (generate_update tables query table_name)
    | some .delete => .ok (generate_delete tables query table_name)
    | none => .error .classification

/-- Spec-side SELECT column list: the registered column names whose
lowercased form occurs in the (lowercased) sentence, in declaration
order. -/
def matchedColumns (cols : ColumnMap) (query : Str) : List Str :=
  (cols.map Prod.fst).filter fun c => inStr (pyLower c) query

/-- The thirteen classification keywords, flattened in priority order. -/
def allKeywords : List Str := kwSelect ++ kwInsert ++ kwUpdate ++ kwDelete

/-- Number of non-overlapping occurrences of the placeholder token `%s`. -/
def countPS : Str → Nat
  | [] => 0
  | [_] => 0
  | c :: d :: rest =>
    if c = '%' && d = 's' then countPS rest + 1
    else countPS (d :: rest)

/-- The `users` table of the spec's scenario. -/
def usersCols : ColumnMap := [(str "name", str "varchar"), (str "age", str "int")]

/-- A registry holding just the scenario's `users` table. -/
def usersTables : Tables := [(str "users", usersCols)]

end QuerySuggestion

deriving instance DecidableEq for Except

namespace QuerySuggestion

/-! ## Lemmas about the string primitives -/

theorem beforeFirst_of_not_inStr (sep : Str) :
    ∀ s : Str, inStr sep s = false → beforeFirst sep s = s := by
  intro s h
  induction s with
  | nil => rfl
  | cons c rest ih =>
    simp only [inStr, Bool.or_eq_false_iff] at h
    simp only [beforeFirst, h.1, Bool.false_eq_true, if_false, List.cons.injEq, true_and]
    exact ih h.2

theorem afterFirst_length_lt (sep : Str) (hsep : sep ≠ []) :
    ∀ s : Str, inStr sep s = true → (afterFirst sep s).length < s.length := by
  intro s h
  induction s with
  | nil =>
    simp only [inStr, List.isEmpty_iff] at h
    exact absurd h hsep
  | cons c rest ih =>
    simp only [inStr, Bool.or_eq_true] at h
    by_cases hp : sep.isPrefixOf (c :: rest) = true
    · simp only [afterFirst, hp, if_true, List.length_drop, List.length_cons]
      have : 1 ≤ sep.length := by
        cases sep with
        | nil => exact absurd rfl hsep
        | cons a l => simp
      omega
    · simp only [afterFirst, hp, Bool.false_eq_true, if_false]
      have hrest : inStr sep rest = true := by
        rcases h with h | h
        · exact absurd h hp
        · exact h
      have := ih hrest
      simp only [List.length_cons]
      omega

theorem isEmpty_false_of_ne_nil {sep : Str} (hsep : sep ≠ []) :
    sep.isEmpty = false := by
  cases sep with
  | nil => exact absurd rfl hsep
  | cons a l => rfl

theorem pySplitF_fuel_irrel (sep : Str) :
    ∀ f₁ : Nat, ∀ s : Str, ∀ f₂ : Nat, s.length ≤ f₁ → s.length ≤ f₂ →
      pySplitF sep f₁ s = pySplitF sep f₂ s := by
  intro f₁
  induction f₁ with
  | zero =>
    intro s f₂ h₁ _
    have hs : s = [] := List.length_eq_zero.mp (Nat.le_zero.mp h₁)
    subst hs
    cases f₂ with
    | zero => rfl
    | succ f₂' =>
      show [([] : Str)] = pySplitF sep (f₂' + 1) []
      rw [show pySplitF sep (f₂' + 1) [] =
          if !sep.isEmpty && inStr sep [] then
            beforeFirst sep [] :: pySplitF sep f₂' (afterFirst sep [])
          else [[]] from rfl]
      rw [show inStr sep ([] : Str) = sep.isEmpty from rfl]
      rw [Bool.not_and_self, if_neg (by simp)]
  | succ f₁' ih =>
    intro s f₂ h₁ h₂
    cases f₂ with
    | zero =>
      have hs : s = [] := List.length_eq_zero.mp (Nat.le_zero.mp h₂)
      subst hs
      show pySplitF sep (f₁' + 1) [] = [([] : Str)]
      rw [show pySplitF sep (f₁' + 1) [] =
          if !sep.isEmpty && inStr sep [] then
            beforeFirst sep [] :: pySplitF sep f₁' (afterFirst sep [])
          else [[]] from rfl]
      rw [show inStr sep ([] : Str) = sep.isEmpty from rfl]
      rw [Bool.not_and_self, if_neg (by simp)]
    | succ f₂' =>
      show (if !sep.isEmpty && inStr sep s then
          beforeFirst sep s :: pySplitF sep f₁' (afterFirst sep s) else [s]) =
        (if !sep.isEmpty && inStr sep s then
          beforeFirst sep s :: pySplitF sep f₂' (afterFirst sep s) else [s])
      by_cases hc : (!sep.isEmpty && inStr sep s) = true
      · simp only [hc, if_true]
        have hsep : sep ≠ [] := by
          intro h
          subst h
          simp at hc
        have hin : inStr sep s = true := (Bool.and_eq_true _ _ |>.mp hc).2
        have hlt := afterFirst_length_lt sep hsep s hin
        exact congrArg _ (ih (afterFirst sep s) f₂' (by omega) (by omega))
      · simp only [hc, Bool.false_eq_true, if_false]

theorem pySplit_eq (sep s : Str) (hsep : sep ≠ []) :
    pySplit sep s =
      if inStr sep s then beforeFirst sep s :: pySplit sep (afterFirst sep s)
      else [s] := by
  have hse : sep.isEmpty = false := isEmpty_false_of_ne_nil hsep
  unfold pySplit
  cases hl : s.length with
  | zero =>
    have hs : s = [] := List.length_eq_zero.mp hl
    subst hs
    have hin : inStr sep ([] : Str) = false := by
      rw [show inStr sep ([] : Str) = sep.isEmpty from rfl]
      exact hse
    simp [pySplitF, hin]
  | succ n =>
    rw [show pySplitF sep (n + 1) s =
        if !sep.isEmpty && inStr sep s then
          beforeFirst sep s :: pySplitF sep n (afterFirst sep s)
        else [s] from rfl]
    by_cases hin : inStr sep s = true
    · have hlt := afterFirst_length_lt sep hsep s hin
      rw [hl] at hlt
      simp only [hse, Bool.not_false, Bool.true_and, hin, if_true, List.cons.injEq, true_and]
      exact pySplitF_fuel_irrel sep n (afterFirst sep s) (afterFirst sep s).length
        (by omega) (le_refl _)
    · have hin' : inStr sep s = false := by simpa using hin
      simp only [hse, Bool.not_false, Bool.true_and, hin', Bool.false_eq_true, if_false]

theorem pySplit_getD_zero (sep s : Str) (hsep : sep ≠ []) :
    (pySplit sep s).getD 0 [] = beforeFirst sep s := by
  rw [pySplit_eq sep s hsep]
  by_cases hin : inStr sep s = true
  · simp [hin]
  · simp only [hin, Bool.false_eq_true, if_false, List.getD_cons_zero]
    exact (beforeFirst_of_not_inStr sep s (by simpa using hin)).symm

theorem pySplit_getD_one (sep s : Str) (hsep : sep ≠ []) (hin : inStr sep s = true) :
    (pySplit sep s).getD 1 [] = beforeFirst sep (afterFirst sep s) := by
  rw [pySplit_eq sep s hsep]
  simp only [hin, if_true, List.getD_cons_succ]
  exact pySplit_getD_zero sep (afterFirst sep s) hsep

/-- The column-collecting loop of `_generate_select` is a filter over the
keys, kept in declaration order. -/
theorem foldl_select_cols (q : Str) :
    ∀ (l : ColumnMap) (init : List Str),
      l.foldl (fun acc kv => if inStr (pyLower kv.1) q then acc ++ [kv.1] else acc) init
        = init ++ (l.map Prod.fst).filter (fun c => inStr (pyLower c) q) := by
  intro l
  induction l with
  | nil => intro init; simp
  | cons kv rest ih =>
    intro init
    simp only [List.foldl_cons, List.map_cons, List.filter_cons]
    by_cases h : inStr (pyLower kv.1) q = true
    · rw [if_pos h, ih, List.append_assoc]
      simp [h]
    · rw [if_neg h, ih]
      simp [h]

/-- Closed form of `_generate_select` for a registered table: the matched
columns (or `*`), then an optional verbatim WHERE clause taken from
between the first and second occurrence of `where`. -/
theorem generate_select_eq (tables : Tables) (query t : Str) (cols : ColumnMap)
    (hlook : dictLookup t tables = some cols) :
    generate_select tables query t =
      str "SELECT " ++
        joinSep (str ", ")
          (if matchedColumns cols query = [] then [str "*"] else matchedColumns cols query) ++
        str " FROM " ++ t ++
        (if inStr (str "where") query then
          str " WHERE " ++
            pyStrip (beforeFirst (str "where") (afterFirst (str "where") query))
         else []) ++ str ";" := by
  have hwne : str "where" ≠ ([] : Str) := by decide
  simp only [generate_select, hlook, Option.getD_some, foldl_select_cols, List.nil_append]
  by_cases hw : inStr (str "where") query = true
  · rw [pySplit_getD_one _ _ hwne hw]
    simp only [hw, if_true, List.isEmpty_cons, Bool.false_eq_true, if_false]
    by_cases hm : matchedColumns cols query = []
    · simp only [matchedColumns] at hm
      simp only [hm, List.isEmpty_nil, if_true, matchedColumns, if_pos hm]
      simp [joinSep, List.append_assoc]
    · simp only [matchedColumns] at hm
      have : ((cols.map Prod.fst).filter fun c => inStr (pyLower c) query).isEmpty = false := by
        rw [List.isEmpty_eq_false_iff_exists_mem]
        rcases List.exists_mem_of_ne_nil _ hm with ⟨x, hx⟩
        exact ⟨x, hx⟩
      simp only [this, Bool.false_eq_true, if_false, matchedColumns, if_neg hm]
      simp [joinSep, List.append_assoc]
  · have hw' : inStr (str "where") query = false := by simpa using hw
    simp only [hw', Bool.false_eq_true, if_false, List.isEmpty_nil, if_true]
    by_cases hm : matchedColumns cols query = []
    · simp only [matchedColumns] at hm
      simp only [hm, List.isEmpty_nil, if_true, matchedColumns, if_pos hm]
      simp [List.append_assoc]
    · simp only [matchedColumns] at hm
      have : ((cols.map Prod.fst).filter fun c => inStr (pyLower c) query).isEmpty = false := by
        rw [List.isEmpty_eq_false_iff_exists_mem]
        rcases List.exists_mem_of_ne_nil _ hm with ⟨x, hx⟩
        exact ⟨x, hx⟩
      simp only [this, Bool.false_eq_true, if_false, matchedColumns, if_neg hm]
      simp [List.append_assoc]

/-! ## Counting placeholder tokens -/

/-- A `%`-free chunk contributes no placeholder occurrence, and no
occurrence can span its boundary. -/
theorem countPS_append_no_pct :
    ∀ (a b : Str), (∀ c ∈ a, c ≠ '%') → countPS (a ++ b) = countPS b := by
  intro a
  induction a with
  | nil => intro b _; rfl
  | cons c rest ih =>
    intro b h
    have hc : c ≠ '%' := h c (by simp)
    cases hr : rest ++ b with
    | nil =>
      rcases List.append_eq_nil.mp hr with ⟨h1, h2⟩
      subst h1; subst h2
      rfl
    | cons d tl =>
      have : countPS (c :: d :: tl) = countPS (d :: tl) := by
        simp only [countPS]
        rw [if_neg (by simp [hc])]
      rw [List.cons_append, hr, this, ← hr]
      exact ih b fun x hx => h x (by simp [hx])

/-- `%s` at the head contributes exactly one occurrence. -/
theorem countPS_ps_cons (b : Str) : countPS ('%' :: 's' :: b) = countPS b + 1 := by
  simp only [countPS]
  rw [if_pos (by simp)]

/-- The joined placeholder list of `_generate_insert` contributes one
occurrence per column. -/
theorem countPS_reps_append :
    ∀ (n : Nat) (b : Str),
      countPS (joinSep (str ", ") (List.replicate n (str "%s")) ++ b) = n + countPS b := by
  intro n
  induction n with
  | zero => intro b; simp [joinSep, List.replicate]
  | succ m ihm =>
    intro b
    cases m with
    | zero =>
      show countPS (('%' :: 's' :: []) ++ b) = 1 + countPS b
      rw [List.cons_append, List.cons_append, List.nil_append, countPS_ps_cons]
      omega
    | succ m' =>
      have hrep : List.replicate (m' + 1 + 1) (str "%s")
          = str "%s" :: List.replicate (m' + 1) (str "%s") := rfl
      have hrep2 : List.replicate (m' + 1) (str "%s")
          = str "%s" :: List.replicate m' (str "%s") := rfl
      rw [hrep, hrep2]
      show countPS ((str "%s" ++ str ", " ++
        joinSep (str ", ") (str "%s" :: List.replicate m' (str "%s"))) ++ b) = _
      rw [← hrep2]
      have : (str "%s" ++ str ", " ++
          joinSep (str ", ") (List.replicate (m' + 1) (str "%s"))) ++ b
          = '%' :: 's' :: ([',', ' '] ++
            (joinSep (str ", ") (List.replicate (m' + 1) (str "%s")) ++ b)) := by
        simp [str, List.append_assoc]
      rw [this, countPS_ps_cons, countPS_append_no_pct [',', ' '] _ (by decide), ihm]
      omega

/-- The SET clause of `_generate_update` contributes one occurrence per
column, provided no column name contains `%`. -/
theorem countPS_set_clause :
    ∀ (l : List Str) (b : Str), (∀ x ∈ l, ∀ c ∈ x, c ≠ '%') →
      countPS (joinSep (str ", ") (l.map fun col => col ++ str " = %s") ++ b)
        = l.length + countPS b := by
  intro l
  induction l with
  | nil => intro b _; simp [joinSep]
  | cons x tail ih =>
    intro b h
    have hx : ∀ c ∈ x, c ≠ '%' := h x (by simp)
    have htail : ∀ y ∈ tail, ∀ c ∈ y, c ≠ '%' := fun y hy => h y (by simp [hy])
    cases tail with
    | nil =>
      show countPS ((x ++ str " = %s") ++ b) = 1 + countPS b
      have : (x ++ str " = %s") ++ b
          = x ++ ([' ', '=', ' '] ++ ('%' :: 's' :: b)) := by
        simp [str, List.append_assoc]
      rw [this, countPS_append_no_pct x _ hx,
        countPS_append_no_pct [' ', '=', ' '] _ (by decide), countPS_ps_cons]
      omega
    | cons y rest =>
      show countPS (((x ++ str " = %s") ++ str ", " ++
        joinSep (str ", ") ((y :: rest).map fun col => col ++ str " = %s")) ++ b) = _
      have : ((x ++ str " = %s") ++ str ", " ++
          joinSep (str ", ") ((y :: rest).map fun col => col ++ str " = %s")) ++ b
          = x ++ ([' ', '=', ' '] ++ ('%' :: 's' :: ([',', ' '] ++
            (joinSep (str ", ") ((y :: rest).map fun col => col ++ str " = %s") ++ b)))) := by
        simp [str, List.append_assoc]
      rw [this, countPS_append_no_pct x _ hx,
        countPS_append_no_pct [' ', '=', ' '] _ (by decide), countPS_ps_cons,
        countPS_append_no_pct [',', ' '] _ (by decide), ih b htail]
      simp only [List.length_cons]
      omega

/-- Joining `%`-free chunks with a `%`-free separator stays `%`-free. -/
theorem joinSep_no_pct :
    ∀ (l : List Str), (∀ x ∈ l, ∀ c ∈ x, c ≠ '%') →
      ∀ c ∈ joinSep (str ", ") l, c ≠ '%' := by
  intro l
  induction l with
  | nil => intro _ c hc; simp [joinSep] at hc
  | cons x tail ih =>
    intro h c hc
    have hx : ∀ c ∈ x, c ≠ '%' := h x (by simp)
    have htail : ∀ y ∈ tail, ∀ c ∈ y, c ≠ '%' := fun y hy => h y (by simp [hy])
    cases tail with
    | nil => exact hx c hc
    | cons y rest =>
      simp only [joinSep, List.append_assoc, List.mem_append] at hc
      rcases hc with hc | hc | hc
      · exact hx c hc
      · intro he; subst he; revert hc; decide
      · exact ih htail c hc

/-! ## Classification, registry and whitespace lemmas -/

/-- The `if/elif` chain of `parse_query` implements the spec's
priority-ordered scan `classifySpec`. -/
theorem parse_query_eq_spec (tables : Tables) (q t : Str) :
    parse_query tables q t = parse_query_spec tables q t := by
  unfold parse_query parse_query_spec classifySpec priorityOrder
  cases dictLookup t tables with
  | none => rfl
  | some cols =>
    by_cases h1 : anyKw kwSelect (pyLower q) = true
    · simp [List.find?, h1]
    · by_cases h2 : anyKw kwInsert (pyLower q) = true
      · simp [List.find?, h1, h2]
      · by_cases h3 : anyKw kwUpdate (pyLower q) = true
        · simp [List.find?, h1, h2, h3]
        · by_cases h4 : anyKw kwDelete (pyLower q) = true
          · simp [List.find?, h1, h2, h3, h4]
          · simp [List.find?, h1, h2, h3, h4]

/-- Python dict assignment is last-write-wins. -/
theorem dictInsert_last_wins (k : Str) (v₁ v₂ : α) :
    ∀ r : List (Str × α), dictInsert k v₂ (dictInsert k v₁ r) = dictInsert k v₂ r := by
  intro r
  induction r with
  | nil => simp [dictInsert]
  | cons p rest ih =>
    obtain ⟨k', v'⟩ := p
    by_cases h : k' = k
    · subst h
      simp [dictInsert]
    · simp [dictInsert, h, ih]

/-- `where` never occurs in an all-whitespace string. -/
theorem inStr_where_false_of_all_space :
    ∀ s : Str, (∀ c ∈ s, isPySpace c = true) → inStr (str "where") s = false := by
  intro s h
  induction s with
  | nil => rfl
  | cons c rest ih =>
    have hc : isPySpace c = true := h c (by simp)
    have hcw : c ≠ 'w' := by
      intro he
      subst he
      revert hc
      decide
    have hp : (str "where").isPrefixOf (c :: rest) = false := by
      show (('w' == c) && (str "here").isPrefixOf rest) = false
      have : ('w' == c) = false := by
        simp only [beq_eq_false_iff_ne]
        exact fun he => hcw he.symm
      simp [this]
    simp only [inStr, hp, Bool.false_or]
    exact ih fun x hx => h x (by simp [hx])

/-- Stripping an all-whitespace string yields the empty string. -/
theorem pyStrip_all_space (s : Str) (h : ∀ c ∈ s, isPySpace c = true) :
    pyStrip s = [] := by
  unfold pyStrip
  rw [List.dropWhile_eq_nil_iff.mpr h]
  rfl

/-! ## Claim C1 -/

/-- Claim C1, as stated, is false on the code: for the scenario sentence
the column loop also matches `age` (it occurs in `where age is 30`), so
the output is not `SELECT name FROM users WHERE age is 30;`. -/
theorem c1_counterexample :
    parse_query usersTables (str "show me the name where age is 30") (str "users")
      ≠ Except.ok (str "SELECT name FROM users WHERE age is 30;") := by
  decide

/-- Claim C1 (amended): on the scenario table `users` with columns
`{name: varchar, age: int}`, the sentence `show me the name where age is
30` generates `SELECT name, age FROM users WHERE age is 30;` (the column
`age` also matches, since it occurs in the sentence). -/
theorem c1_select_scenario :
    parse_query usersTables (str "show me the name where age is 30") (str "users")
      = Except.ok (str "SELECT name, age FROM users WHERE age is 30;") := by
  decide

/-! ## Claim C2 -/

/-- Claim C2, as stated, is false on the code: with two occurrences of
`where` in the sentence, Python's `split('where')[1]` yields only the
segment between the first and second occurrence (`a`), not the whole
trimmed suffix after the first occurrence (`a where b`). -/
theorem c2_counterexample :
    parse_query usersTables (str "show x where a where b") (str "users")
      = Except.ok (str "SELECT * FROM users WHERE a;") ∧
    pyStrip (afterFirst (str "where") (pyLower (str "show x where a where b")))
      = str "a where b" ∧
    Except.ok (str "SELECT * FROM users WHERE a;")
      ≠ (Except.ok (str "SELECT * FROM users WHERE a where b;") : Except QueryError Str) := by
  refine ⟨by decide, by decide, by decide⟩

/-- Claim C2 (amended): for every registered table and every
SELECT-classified sentence containing `where`, the emitted WHERE clause
equals the segment of the lowercased sentence strictly between the first
occurrence of `where` and the next non-overlapping occurrence (the whole
remaining suffix when `where` occurs only once), trimmed of whitespace
and appended verbatim. -/
theorem c2_where_clause (tables : Tables) (q t : Str) (cols : ColumnMap)
    (hlook : dictLookup t tables = some cols)
    (hsel : anyKw kwSelect (pyLower q) = true)
    (hw : inStr (str "where") (pyLower q) = true) :
    ∃ colPart : Str,
      parse_query tables q t
        = Except.ok (str "SELECT " ++ colPart ++ str " FROM " ++ t ++ str " WHERE " ++
            pyStrip (beforeFirst (str "where") (afterFirst (str "where") (pyLower q))) ++
            str ";") := by
  refine ⟨joinSep (str ", ")
    (if matchedColumns cols (pyLower q) = [] then [str "*"]
     else matchedColumns cols (pyLower q)), ?_⟩
  simp only [parse_query, hlook, hsel, if_true]
  rw [generate_select_eq tables (pyLower q) t cols hlook]
  simp [hw, List.append_assoc]

/-- Witness for the amended C2 on the scenario input. -/
theorem c2_where_clause_witness :
    ∃ colPart : Str,
      parse_query usersTables (str "show me the name where age is 30") (str "users")
        = Except.ok (str "SELECT " ++ colPart ++ str " FROM " ++ str "users" ++
            str " WHERE " ++
            pyStrip (beforeFirst (str "where")
              (afterFirst (str "where") (pyLower (str "show me the name where age is 30")))) ++
            str ";") :=
  c2_where_clause usersTables (str "show me the name where age is 30") (str "users")
    usersCols (by decide) (by decide) (by decide)

/-! ## Claim C3 -/

/-- Claim C3, as stated, is false on the code: for the two-column table
`users` the generated UPDATE statement contains three `%s` placeholders
(one per column in the SET clause plus one in the fixed trailing
`WHERE condition = %s`), not `len(columns) = 2`. -/
theorem c3_counterexample :
    parse_query usersTables (str "update the record") (str "users")
      = Except.ok (str "UPDATE users SET name = %s, age = %s WHERE condition = %s;") ∧
    countPS (str "UPDATE users SET name = %s, age = %s WHERE condition = %s;") = 3 ∧
    usersCols.length = 2 := by
  refine ⟨by decide, by decide, by decide⟩

/-- Claim C3 (amended): for every registered table whose name and column
names contain no `%` character, the generated INSERT statement contains
exactly `len(columns)` occurrences of the placeholder token `%s`, the
generated UPDATE statement exactly `len(columns) + 1` (the SET clause
plus the fixed trailing `WHERE condition = %s`), and the generated DELETE
statement exactly one, regardless of sentence content. -/
theorem c3_placeholder_counts (tables : Tables) (q t : Str) (cols : ColumnMap)
    (hlook : dictLookup t tables = some cols)
    (ht : ∀ c ∈ t, c ≠ '%')
    (hc : ∀ p ∈ cols, ∀ c ∈ p.1, c ≠ '%') :
    countPS (generate_insert tables q t) = cols.length ∧
    countPS (generate_update tables q t) = cols.length + 1 ∧
    countPS (generate_delete tables q t) = 1 := by
  have hkeys : ∀ x ∈ cols.map Prod.fst, ∀ c ∈ x, c ≠ '%' := by
    intro x hx
    rcases List.mem_map.mp hx with ⟨p, hp, he⟩
    exact he ▸ hc p hp
  refine ⟨?_, ?_, ?_⟩
  · simp only [generate_insert, hlook, Option.getD_some]
    rw [show str "INSERT INTO " ++ t ++ str " (" ++
          joinSep (str ", ") (cols.map Prod.fst) ++ str ") VALUES (" ++
          joinSep (str ", ")
            (List.replicate (cols.map Prod.fst).length (str "%s")) ++ str ");"
        = str "INSERT INTO " ++ (t ++ (str " (" ++
          (joinSep (str ", ") (cols.map Prod.fst) ++ (str ") VALUES (" ++
          (joinSep (str ", ")
            (List.replicate (cols.map Prod.fst).length (str "%s")) ++ str ");")))))
      from by simp [List.append_assoc]]
    rw [countPS_append_no_pct (str "INSERT INTO ") _ (by decide),
      countPS_append_no_pct t _ ht,
      countPS_append_no_pct (str " (") _ (by decide),
      countPS_append_no_pct _ _ (joinSep_no_pct _ hkeys),
      countPS_append_no_pct (str ") VALUES (") _ (by decide),
      countPS_reps_append]
    have : countPS (str ");") = 0 := by decide
    rw [this]
    simp
  · simp only [generate_update, hlook, Option.getD_some]
    rw [show str "UPDATE " ++ t ++ str " SET " ++
          joinSep (str ", ") ((cols.map Prod.fst).map fun col => col ++ str " = %s") ++
          str " WHERE condition = %s;"
        = str "UPDATE " ++ (t ++ (str " SET " ++
          (joinSep (str ", ") ((cols.map Prod.fst).map fun col => col ++ str " = %s") ++
          str " WHERE condition = %s;")))
      from by simp [List.append_assoc]]
    rw [countPS_append_no_pct (str "UPDATE ") _ (by decide),
      countPS_append_no_pct t _ ht,
      countPS_append_no_pct (str " SET ") _ (by decide),
      countPS_set_clause _ _ hkeys]
    have : countPS (str " WHERE condition = %s;") = 1 := by decide
    rw [this]
    simp
  · simp only [generate_delete]
    rw [show str "DELETE FROM " ++ t ++ str " WHERE condition = %s;"
        = str "DELETE FROM " ++ (t ++ str " WHERE condition = %s;")
      from by simp [List.append_assoc]]
    rw [countPS_append_no_pct (str "DELETE FROM ") _ (by decide),
      countPS_append_no_pct t _ ht]
    decide

/-- Witness for the amended C3 on the scenario table. -/
theorem c3_placeholder_counts_witness :
    countPS (generate_insert usersTables (str "add a new user") (str "users"))
      = usersCols.length ∧
    countPS (generate_update usersTables (str "add a new user") (str "users"))
      = usersCols.length + 1 ∧
    countPS (generate_delete usersTables (str "add a new user") (str "users")) = 1 :=
  c3_placeholder_counts usersTables (str "add a new user") (str "users") usersCols
    (by decide) (by decide) (by decide)

/-! ## Claim C4 -/

/-- Claim C4: for a registered table (with distinct column names, a
Python-dict invariant) and a SELECT-classified sentence, the emitted
column list is exactly the registered column names whose lowercased form
occurs in the lowercased sentence, without duplicates, in declaration
order — or the single token `*` when none matches; with no `where` in the
sentence there is no WHERE segment, and with no match and no `where` the
result is `SELECT * FROM T;`. -/
theorem c4_select_columns (tables : Tables) (q t : Str) (cols : ColumnMap)
    (hlook : dictLookup t tables = some cols)
    (hnd : (cols.map Prod.fst).Nodup)
    (hsel : anyKw kwSelect (pyLower q) = true) :
    (matchedColumns cols (pyLower q)).Nodup ∧
    (∃ wpart : Str,
      parse_query tables q t
        = Except.ok (str "SELECT " ++
            joinSep (str ", ")
              (if matchedColumns cols (pyLower q) = [] then [str "*"]
               else matchedColumns cols (pyLower q)) ++
            str " FROM " ++ t ++ wpart ++ str ";") ∧
      (inStr (str "where") (pyLower q) = false → wpart = [])) ∧
    (matchedColumns cols (pyLower q) = [] → inStr (str "where") (pyLower q) = false →
      parse_query tables q t = Except.ok (str "SELECT * FROM " ++ t ++ str ";")) := by
  have hpq : parse_query tables q t = Except.ok (generate_select tables (pyLower q) t) := by
    simp only [parse_query, hlook, hsel, if_true]
  refine ⟨hnd.filter _, ?_, ?_⟩
  · refine ⟨(if inStr (str "where") (pyLower q) then
        str " WHERE " ++
          pyStrip (beforeFirst (str "where") (afterFirst (str "where") (pyLower q)))
      else []), ?_, ?_⟩
    · rw [hpq, generate_select_eq tables (pyLower q) t cols hlook]
    · intro hnw
      simp [hnw]
  · intro hm hnw
    rw [hpq, generate_select_eq tables (pyLower q) t cols hlook]
    simp only [hm, if_true, hnw, Bool.false_eq_true, if_false]
    have h1 : joinSep (str ", ") [str "*"] = str "*" := rfl
    rw [h1]
    have h2 : str "SELECT " ++ str "*" ++ str " FROM " = str "SELECT * FROM " := by decide
    rw [show str "SELECT " ++ str "*" ++ str " FROM " ++ t ++ [] ++ str ";"
        = (str "SELECT " ++ str "*" ++ str " FROM ") ++ t ++ str ";" from by
      simp [List.append_assoc]]
    rw [h2]

/-- Witness for C4: `find everything` on `users` matches no column and has
no `where`, giving `SELECT * FROM users;`. -/
theorem c4_select_columns_witness :
    (matchedColumns usersCols (pyLower (str "find everything"))).Nodup ∧
    (∃ wpart : Str,
      parse_query usersTables (str "find everything") (str "users")
        = Except.ok (str "SELECT " ++
            joinSep (str ", ")
              (if matchedColumns usersCols (pyLower (str "find everything")) = [] then [str "*"]
               else matchedColumns usersCols (pyLower (str "find everything"))) ++
            str " FROM " ++ str "users" ++ wpart ++ str ";") ∧
      (inStr (str "where") (pyLower (str "find everything")) = false → wpart = [])) ∧
    (matchedColumns usersCols (pyLower (str "find everything")) = [] →
      inStr (str "where") (pyLower (str "find everything")) = false →
      parse_query usersTables (str "find everything") (str "users")
        = Except.ok (str "SELECT * FROM " ++ str "users" ++ str ";")) :=
  c4_select_columns usersTables (str "find everything") (str "users") usersCols
    (by decide) (by decide) (by decide)

/-! ## Claim C5 -/

/-- Claim C5: for every registry and sentence, `parse_query` classifies
by scanning the keyword sets in the fixed priority order SELECT, INSERT,
UPDATE, DELETE — the first set with any substring match wins — as
captured by the spec-side `classifySpec` dispatch. -/
theorem c5_priority_dispatch (tables : Tables) (q t : Str) :
    parse_query tables q t = parse_query_spec tables q t :=
  parse_query_eq_spec tables q t

/-! ## Claim C6 -/

/-- Claim C6: on an unregistered table name, `parse_query` fails with the
not-found error regardless of sentence content, never with the
classification error. -/
theorem c6_unregistered_not_found (tables : Tables) (q t : Str)
    (h : dictLookup t tables = none) :
    parse_query tables q t = Except.error (QueryError.notFound t) ∧
    parse_query tables q t ≠ Except.error QueryError.classification := by
  have he : parse_query tables q t = Except.error (.notFound t) := by
    simp only [parse_query, h]
  refine ⟨he, ?_⟩
  rw [he]
  intro hcontra
  exact QueryError.noConfusion (Except.error.inj hcontra)

/-- Witness for C6: table `orders` is not registered, and the sentence
contains no keyword either — still not-found. -/
theorem c6_unregistered_not_found_witness :
    parse_query usersTables (str "hello world") (str "orders")
      = Except.error (QueryError.notFound (str "orders")) ∧
    parse_query usersTables (str "hello world") (str "orders")
      ≠ Except.error QueryError.classification :=
  c6_unregistered_not_found usersTables (str "hello world") (str "orders") (by decide)

/-! ## Claim C7 -/

/-- Claim C7: on a registered table, a sentence whose lowercased form
contains none of the thirteen keywords as a substring fails with the
classification error. -/
theorem c7_no_keyword_classification (tables : Tables) (q t : Str) (cols : ColumnMap)
    (hlook : dictLookup t tables = some cols)
    (hnone : ∀ w ∈ allKeywords, inStr w (pyLower q) = false) :
    parse_query tables q t = Except.error QueryError.classification := by
  have hof : ∀ l : List Str, (∀ w ∈ l, inStr w (pyLower q) = false) →
      anyKw l (pyLower q) = false := by
    intro l hl
    simp only [anyKw, List.any_eq_false]
    intro w hw
    simp [hl w hw]
  have h1 : anyKw kwSelect (pyLower q) = false :=
    hof _ fun w hw => hnone w (by simp [allKeywords, hw])
  have h2 : anyKw kwInsert (pyLower q) = false :=
    hof _ fun w hw => hnone w (by simp [allKeywords, hw])
  have h3 : anyKw kwUpdate (pyLower q) = false :=
    hof _ fun w hw => hnone w (by simp [allKeywords, hw])
  have h4 : anyKw kwDelete (pyLower q) = false :=
    hof _ fun w hw => hnone w (by simp [allKeywords, hw])
  simp only [parse_query, hlook, h1, h2, h3, h4, Bool.false_eq_true, if_false]

/-- Witness for C7: `hello world` contains no keyword. -/
theorem c7_no_keyword_classification_witness :
    parse_query usersTables (str "hello world") (str "users")
      = Except.error QueryError.classification :=
  c7_no_keyword_classification usersTables (str "hello world") (str "users") usersCols
    (by decide) (by decide)

/-! ## Claim C8 -/

/-- Claim C8: registering a table twice is last-write-wins with wholesale
replacement — the registry equals the one obtained by registering the
second column map alone, so every subsequent `parse_query` call reflects
only the latest column map. -/
theorem c8_register_last_write_wins (g : SQLQueryGenerator) (t : Str)
    (c₁ c₂ : ColumnMap) :
    add_table (add_table g t c₁) t c₂ = add_table g t c₂ ∧
    ∀ q t' : Str,
      parse_query (add_table (add_table g t c₁) t c₂).tables q t'
        = parse_query (add_table g t c₂).tables q t' := by
  have h := dictInsert_last_wins t c₁ c₂ g.tables
  refine ⟨?_, ?_⟩
  · simp only [add_table, h]
  · intro q t'
    simp only [add_table, h]

/-! ## Claim C9 -/

/-- Claim C9: `parse_query` never mutates the registry — as a state
transformer it returns the generator state unchanged on every input,
whether it succeeds or fails; the method body contains no write to
`self.tables`, so the embedding returns the pre-state verbatim. -/
theorem c9_generate_preserves_registry (g : SQLQueryGenerator) (q t : Str) :
    (parse_query_run g q t).2 = g :=
  rfl

/-! ## Claim C10 -/

/-- Claim C10: when the lowercased sentence is SELECT-classified and its
first `where` is followed only by whitespace, the WHERE keyword is still
emitted with an empty trimmed condition, so the statement ends in
`WHERE ;`. -/
theorem c10_trailing_where_empty (tables : Tables) (q t : Str) (cols : ColumnMap)
    (hlook : dictLookup t tables = some cols)
    (hsel : anyKw kwSelect (pyLower q) = true)
    (hw : inStr (str "where") (pyLower q) = true)
    (hws : ∀ c ∈ afterFirst (str "where") (pyLower q), isPySpace c = true) :
    ∃ colPart : Str,
      parse_query tables q t
        = Except.ok (str "SELECT " ++ colPart ++ str " FROM " ++ t ++ str " WHERE ;") := by
  obtain ⟨colPart, hcp⟩ := c2_where_clause tables q t cols hlook hsel hw
  refine ⟨colPart, ?_⟩
  rw [hcp]
  have hni : inStr (str "where") (afterFirst (str "where") (pyLower q)) = false :=
    inStr_where_false_of_all_space _ hws
  rw [beforeFirst_of_not_inStr _ _ hni, pyStrip_all_space _ hws]
  have h2 : str " WHERE " ++ str ";" = str " WHERE ;" := by decide
  simp only [List.append_assoc, List.nil_append] at h2 ⊢
  simp [h2]

/-- Witness for C10: `show me where ` (trailing space) on `users`. -/
theorem c10_trailing_where_empty_witness :
    ∃ colPart : Str,
      parse_query usersTables (str "show me where ") (str "users")
        = Except.ok (str "SELECT " ++ colPart ++ str " FROM " ++ str "users" ++
            str " WHERE ;") :=
  c10_trailing_where_empty usersTables (str "show me where ") (str "users") usersCols
    (by decide) (by decide) (by decide) (by decide)

end QuerySuggestion
